import Mathlib

/-!
Shallow embedding of `src/inngest/functions.ts` (the `codeAgentFunction`
orchestration loop of the Zenkai repository), together with proofs about it.

JavaScript objects used as string maps (`AgentState.files`, the sandbox
filesystem) are embedded as insertion-ordered association lists with unique
keys maintained by `insertFile`. Machine-level concerns (the inngest step
substrate, the OpenAI calls) are abstracted exactly as the specification
directs: the model behaviour of a turn is an oracle parameter, the sandbox
write/read operations are a map plus a failure oracle.
-/

namespace Zenkai

/-- A JavaScript object used as a string-to-string map: insertion-ordered
association list with unique keys (maintained by `insertFile`). -/
abbrev Files := List (String × String)

/-- JS `obj[path] = content` on an insertion-ordered map: replace the value
in place when the key is present, append the key otherwise. -/
def insertFile : Files → String → String → Files
  | [], p, c => [(p, c)]
  | (q, d) :: rest, p, c =>
    if q = p then (p, c) :: rest else (q, d) :: insertFile rest p c

/-- JS property read `obj[path]` on the association-list map. -/
def lookupFile : Files → String → Option String
  | [], _ => none
  | (q, d) :: rest, p => if q = p then some d else lookupFile rest p

/-- The `AgentState` interface (functions.ts lines 9-12): completion summary
and accumulated file contents. -/
structure AgentState where
  summary : String
  files : Files
deriving Repr, DecidableEq

/-- The initial state built by `createState` (functions.ts lines 48-56):
empty summary, empty files map. -/
def initialState : AgentState := { summary := "", files := [] }

/-- Substring search on character lists: does the haystack contain the
needle as a contiguous segment? Embeds JS `String.prototype.includes`. -/
def containsSeg (needle : List Char) : List Char → Bool
  | [] => needle.isEmpty
  | c :: rest => needle.isPrefixOf (c :: rest) || containsSeg needle rest

/-- JS `hay.includes(needle)`. -/
def strIncludes (hay needle : String) : Bool :=
  containsSeg needle.toList hay.toList

/-- The completion sentinel searched for at functions.ts line 164. -/
def taskSummaryTag : String := "<task_summary>"

/-- The `onResponse` lifecycle hook (functions.ts lines 158-171): when the
last assistant text message of the turn exists (`none` models a pure
tool-call turn with no assistant text) and is truthy (non-empty) and
contains the sentinel, the whole text is written verbatim into
`state.summary`; otherwise the state is untouched. -/
def onResponse (lastAssistantMessageText : Option String) (st : AgentState) :
    AgentState :=
  match lastAssistantMessageText with
  | none => st
  | some t =>
    if t.toList.isEmpty then st
    else if strIncludes t taskSummaryTag then { st with summary := t }
    else st

/-- Outcome of `sandbox.commands.run` in the `terminal` tool handler
(functions.ts lines 75-97): either the command returns a result (whose
`stdout` field the handler returns) or it throws, with the stringified
error and the two stream buffers accumulated so far. -/
inductive CmdOutcome where
  | ok (stdout stderr : String)
  | thrown (e stdoutBuf stderrBuf : String)
deriving Repr, DecidableEq

/-- The `terminal` tool handler result (functions.ts lines 75-97). On
success it returns `result.stdout`; on a thrown error it returns the
template-literal string of line 94 (in a JS template literal the escape
`\s` denotes the plain character `s`, so the text between the error and
the stdout buffer reads " stdout: "). -/
def terminal : CmdOutcome → String
  | .ok stdout _ => stdout
  | .thrown e o s =>
      "Command failed: " ++ e ++ " stdout: " ++ o ++ "\nstderr: " ++ s

/-- The `createOrUpdateFiles` tool handler (functions.ts lines 110-132).

`updatedFiles` (line 116, `network.state.data.files || {}`) aliases the
live `network.state.data.files` object (the state field is initialised to
`{}`, which is truthy, so the `|| {}` branch is never taken). Each
`updatedFiles[path] = content` at line 120 therefore mutates the agent
state map in place, after the corresponding `sandbox.files.write` at
line 119 succeeded. When every write succeeds the handler returns that
same object and line 130 re-assigns it to the state (the identity); when
a write throws, the handler returns an error string, the guard at
line 129 skips the assignment, but the in-place mutations made before the
throw remain in the state.

`writeOk p c` is the failure oracle for `sandbox.files.write(p, c)`.
The result is: the agent state `files` map after the call, the sandbox
filesystem after the call, and whether every write succeeded (false
models the handler returning the `"Error: " + e` string). -/
def createOrUpdateFiles (writeOk : String → String → Bool) :
    Files → Files → List (String × String) → Files × Files × Bool
  | stateFiles, sbx, [] => (stateFiles, sbx, true)
  | stateFiles, sbx, (p, c) :: rest =>
    if writeOk p c then
      createOrUpdateFiles writeOk (insertFile stateFiles p c)
        (insertFile sbx p c) rest
    else (stateFiles, sbx, false)

/-- A sequence of `createOrUpdateFiles` tool invocations, threading the
agent state files map and the sandbox filesystem. -/
def runWriteCalls (writeOk : String → String → Bool) :
    Files → Files → List (List (String × String)) → Files × Files
  | f, s, [] => (f, s)
  | f, s, call :: rest =>
    let r := createOrUpdateFiles writeOk f s call
    runWriteCalls writeOk r.1 r.2.1 rest

/-- Last-write-wins merge of a list of (path, content) entries into a files
map: fold of the JS property assignment. -/
def lwwMerge (fs : Files) (entries : List (String × String)) : Files :=
  entries.foldl (fun acc e => insertFile acc e.1 e.2) fs

/-- `sandbox.files.read` (functions.ts line 146): `none` models the read
throwing (file absent). -/
def readSandboxFile (sbx : Files) (p : String) : Option String :=
  lookupFile sbx p

/-- The `contents` accumulation loop of the `readFiles` handler
(functions.ts lines 144-148): read each path in order, collecting
(path, content) records; a throwing read aborts the whole call
(`none`). -/
def readContents (sbx : Files) : List String → Option (List (String × String))
  | [] => some []
  | p :: ps =>
    match readSandboxFile sbx p with
    | none => none
    | some c => (readContents sbx ps).map (fun rest => (p, c) :: rest)

/-- JSON string-character escaping, modelling `JSON.stringify` on the
common characters of file contents. -/
def jsonEscapeChar (c : Char) : String :=
  if c = '"' then "\\\"" else
  if c = '\\' then "\\\\" else
  if c = '\n' then "\\n" else
  if c = '\t' then "\\t" else
  if c = '\r' then "\\r" else
  String.singleton c

/-- JSON escaping of a whole string. -/
def jsonEscape (s : String) : String :=
  String.join (s.toList.map jsonEscapeChar)

/-- A JSON string literal. -/
def jsonStr (s : String) : String := "\"" ++ jsonEscape s ++ "\""

/-- One record of the `contents` array as `JSON.stringify` renders it. -/
def jsonEntry (e : String × String) : String :=
  "\x7b\"path\":" ++ jsonStr e.1 ++ ",\"content\":" ++ jsonStr e.2 ++ "\x7d"

/-- `JSON.stringify(contents)` for the list of (path, content) records
(functions.ts line 150). -/
def jsonStringify (l : List (String × String)) : String :=
  "[" ++ String.intercalate "," (l.map jsonEntry) ++ "]"

/-- The `readFiles` tool handler (functions.ts lines 140-155): on success
the JSON encoding of the collected records, on a thrown read the
`"Error: " + e` string (`errMsg` abstracts the sandbox exception text). -/
def readFiles (sbx : Files) (paths : List String) (errMsg : String) : String :=
  match readContents sbx paths with
  | some contents => jsonStringify contents
  | none => "Error: " ++ errMsg

/-- What the model produces in one agent turn: the `createOrUpdateFiles`
invocations it makes (the only tool that mutates agent state; `terminal`
and `readFiles` return strings without touching it) and the final
assistant text of the turn (`none` for a pure tool-call turn). -/
structure TurnOutput where
  writes : List (List (String × String))
  text : Option String

/-- One agent turn: apply the write-tool invocations of the turn to the
state files map and the sandbox, then run the `onResponse` hook
(functions.ts lines 158-171) on the final assistant text. -/
def runTurn (writeOk : String → String → Bool) (t : TurnOutput)
    (st : AgentState) (sbx : Files) : AgentState × Files :=
  let r := runWriteCalls writeOk st.files sbx t.writes
  (onResponse t.text { st with files := r.1 }, r.2)

/-- Modelled from the spec: the network loop driver of agent-kit
(`createNetwork` / `network.run`, functions.ts lines 174-189) is library
code outside this repository; section 4.4 of the spec gives its state
machine. Before each turn the router of functions.ts lines 179-186 runs:
it returns no agent (stopping the loop) once `state.summary` is truthy,
and the iteration cap `maxIter` forces termination after `cap` turns.
`stateAt writeOk agent cap sbx0 n` is the (agent state, sandbox
filesystem) pair after `n` loop boundaries: turn `n` executes iff
`n < cap` and the summary is still empty at boundary `n`; once the loop
has stopped the state is frozen. -/
def stateAt (writeOk : String → String → Bool) (agent : Nat → TurnOutput)
    (cap : Nat) (sbx0 : Files) : Nat → AgentState × Files
  | 0 => (initialState, sbx0)
  | n + 1 =>
    let r := stateAt writeOk agent cap sbx0 n
    if n < cap ∧ r.1.summary = "" then runTurn writeOk (agent n) r.1 r.2
    else r

/-- The iteration cap configured at functions.ts line 177. -/
def codeAgentMaxIter : Nat := 15

/-- Whether turn `n` actually executed in the run. -/
def turnRan (writeOk : String → String → Bool) (agent : Nat → TurnOutput)
    (cap : Nat) (sbx0 : Files) (n : Nat) : Bool :=
  decide (n < cap) && ((stateAt writeOk agent cap sbx0 n).1.summary == "")

/-- Number of agent turns the loop executed. -/
def turnsExecuted (writeOk : String → String → Bool)
    (agent : Nat → TurnOutput) (cap : Nat) (sbx0 : Files) : Nat :=
  ((List.range cap).filter (turnRan writeOk agent cap sbx0)).length

/-- The failure verdict of functions.ts lines 236-238: summary falsy
(empty) or `Object.keys(files).length === 0` (empty files map). -/
def isError (st : AgentState) : Bool :=
  (st.summary == "") || st.files.isEmpty

/-- The fragment payload created at functions.ts lines 264-270. -/
structure Fragment where
  sandboxUrl : String
  title : String
  files : Files
deriving Repr, DecidableEq

/-- The message record persisted by the `save-result` step
(functions.ts lines 246-273). -/
structure MessageRecord where
  projectId : String
  content : String
  role : String
  type : String
  fragment : Option Fragment
deriving Repr, DecidableEq

/-- Shape of `output[0]` of a post-loop generator agent: a text message
whose content is a plain string, a text message whose content is an array
of strings, or a non-text message. -/
inductive GenOutput where
  | textStr (content : String)
  | textArr (content : List String)
  | nonText
deriving Repr, DecidableEq

/-- `generateFragmentTitle` (functions.ts lines 212-222): fall back to
"Fragment" for a non-text message; join an array content with "" (the
`map((txt) => txt)` is the identity); return a string content as is. -/
def generateFragmentTitle : GenOutput → String
  | .nonText => "Fragment"
  | .textArr l => String.join l
  | .textStr s => s

/-- `generateResponse` (functions.ts lines 224-234), same shape with the
"Here you go!" fallback. -/
def generateResponse : GenOutput → String
  | .nonText => "Here you go!"
  | .textArr l => String.join l
  | .textStr s => s

/-- The `save-result` step (functions.ts lines 246-273): on failure a
fixed assistant error message with no fragment; on success the generated
response with a fragment holding the sandbox url, the generated title and
the run files. -/
def saveResult (projectId : String) (st : AgentState) (sandboxUrl : String)
    (titleOutput respOutput : GenOutput) : MessageRecord :=
  if isError st then
    { projectId := projectId,
      content := "Something went wrong. Please try again.",
      role := "ASSISTANT", type := "ERROR", fragment := none }
  else
    { projectId := projectId, content := generateResponse respOutput,
      role := "ASSISTANT", type := "RESULT",
      fragment := some { sandboxUrl := sandboxUrl,
                         title := generateFragmentTitle titleOutput,
                         files := st.files } }

/-- The result descriptor returned to the trigger caller
(functions.ts lines 275-280). -/
structure RunReturn where
  url : String
  title : String
  files : Files
  summary : String
deriving Repr, DecidableEq

/-- The return statement of `codeAgentFunction` (functions.ts lines
275-280): the `title` field is the literal string "Fragment". -/
def codeAgentReturn (sandboxUrl : String) (st : AgentState) : RunReturn :=
  { url := sandboxUrl, title := "Fragment", files := st.files,
    summary := st.summary }


theorem lookupFile_insertFile_self (fs : Files) (p c : String) :
    lookupFile (insertFile fs p c) p = some c := by
  induction fs with
  | nil => simp [insertFile, lookupFile]
  | cons hd tl ih =>
    obtain ⟨q, d⟩ := hd
    by_cases h : q = p
    · simp [insertFile, h, lookupFile]
    · simp [insertFile, h, lookupFile, ih]

theorem lookupFile_insertFile_ne (fs : Files) {p q : String} (c : String)
    (h : q ≠ p) : lookupFile (insertFile fs q c) p = lookupFile fs p := by
  induction fs with
  | nil => simp [insertFile, lookupFile, h]
  | cons hd tl ih =>
    obtain ⟨r, d⟩ := hd
    by_cases hr : r = q
    · simp [insertFile, hr, lookupFile, h]
    · simp [insertFile, hr, lookupFile, ih]

theorem lookupFile_isSome_insertFile (fs : Files) (p q c : String)
    (h : (lookupFile fs p).isSome = true) :
    (lookupFile (insertFile fs q c) p).isSome = true := by
  by_cases hq : q = p
  · subst hq; rw [lookupFile_insertFile_self]; rfl
  · rw [lookupFile_insertFile_ne fs c hq]; exact h

theorem lwwMerge_cons (f : Files) (p c : String)
    (rest : List (String × String)) :
    lwwMerge f ((p, c) :: rest) = lwwMerge (insertFile f p c) rest := rfl

theorem lwwMerge_append (f : Files) (a b : List (String × String)) :
    lwwMerge f (a ++ b) = lwwMerge (lwwMerge f a) b :=
  List.foldl_append _ _ _ _

theorem createOrUpdateFiles_allOk (writeOk : String → String → Bool)
    (entries : List (String × String)) :
    ∀ f s : Files, (∀ e ∈ entries, writeOk e.1 e.2 = true) →
      createOrUpdateFiles writeOk f s entries
        = (lwwMerge f entries, lwwMerge s entries, true) := by
  induction entries with
  | nil => intro f s _; simp [createOrUpdateFiles, lwwMerge]
  | cons e rest ih =>
    intro f s h
    obtain ⟨p, c⟩ := e
    have hp : writeOk p c = true := h (p, c) (by simp)
    simp only [createOrUpdateFiles, hp, if_true, lwwMerge_cons]
    exact ih (insertFile f p c) (insertFile s p c)
      (fun e he => h e (List.mem_cons_of_mem _ he))

theorem createOrUpdateFiles_files_mono (writeOk : String → String → Bool)
    (entries : List (String × String)) :
    ∀ (f s : Files) (p : String), (lookupFile f p).isSome = true →
      (lookupFile (createOrUpdateFiles writeOk f s entries).1 p).isSome
        = true := by
  induction entries with
  | nil => intro f s p h; simpa [createOrUpdateFiles] using h
  | cons e rest ih =>
    intro f s p h
    obtain ⟨q, c⟩ := e
    by_cases hw : writeOk q c = true
    · simp only [createOrUpdateFiles, hw, if_true]
      exact ih _ _ p (lookupFile_isSome_insertFile f p q c h)
    · simp only [createOrUpdateFiles, hw, if_false]
      simpa using h

theorem runWriteCalls_files_mono (writeOk : String → String → Bool)
    (calls : List (List (String × String))) :
    ∀ (f s : Files) (p : String), (lookupFile f p).isSome = true →
      (lookupFile (runWriteCalls writeOk f s calls).1 p).isSome = true := by
  induction calls with
  | nil => intro f s p h; simpa [runWriteCalls] using h
  | cons call rest ih =>
    intro f s p h
    simp only [runWriteCalls]
    exact ih _ _ p (createOrUpdateFiles_files_mono writeOk call f s p h)

theorem runWriteCalls_allOk (writeOk : String → String → Bool)
    (calls : List (List (String × String))) :
    ∀ f s : Files, (∀ call ∈ calls, ∀ e ∈ call, writeOk e.1 e.2 = true) →
      runWriteCalls writeOk f s calls
        = (lwwMerge f calls.flatten, lwwMerge s calls.flatten) := by
  induction calls with
  | nil => intro f s _; simp [runWriteCalls, lwwMerge]
  | cons call rest ih =>
    intro f s h
    have hcall : ∀ e ∈ call, writeOk e.1 e.2 = true :=
      h call (List.mem_cons_self _ _)
    simp only [runWriteCalls, createOrUpdateFiles_allOk writeOk call f s hcall]
    rw [ih _ _ (fun c hc => h c (List.mem_cons_of_mem _ hc))]
    simp [List.flatten, lwwMerge_append]

theorem createOrUpdateFiles_sbx_lookup_ne (writeOk : String → String → Bool)
    {p : String} (entries : List (String × String))
    (hne : ∀ e ∈ entries, e.1 ≠ p) :
    ∀ f s : Files,
      lookupFile (createOrUpdateFiles writeOk f s entries).2.1 p
        = lookupFile s p := by
  induction entries with
  | nil => intro f s; simp [createOrUpdateFiles]
  | cons e rest ih =>
    intro f s
    obtain ⟨q, c⟩ := e
    have hq : q ≠ p := hne (q, c) (by simp)
    by_cases hw : writeOk q c = true
    · simp only [createOrUpdateFiles, hw, if_true]
      rw [ih (fun e he => hne e (List.mem_cons_of_mem _ he)) _ _]
      exact lookupFile_insertFile_ne s c hq
    · simp [createOrUpdateFiles, hw]

theorem runWriteCalls_sbx_lookup_ne (writeOk : String → String → Bool)
    {p : String} (calls : List (List (String × String)))
    (hne : ∀ call ∈ calls, ∀ e ∈ call, e.1 ≠ p) :
    ∀ f s : Files,
      lookupFile (runWriteCalls writeOk f s calls).2 p = lookupFile s p := by
  induction calls with
  | nil => intro f s; simp [runWriteCalls]
  | cons call rest ih =>
    intro f s
    simp only [runWriteCalls]
    rw [ih (fun c hc => hne c (List.mem_cons_of_mem _ hc)) _ _]
    exact createOrUpdateFiles_sbx_lookup_ne writeOk call
      (hne call (List.mem_cons_self _ _)) f s


theorem onResponse_files (txt : Option String) (st : AgentState) :
    (onResponse txt st).files = st.files := by
  cases txt with
  | none => rfl
  | some t =>
    simp only [onResponse]
    split_ifs <;> rfl

theorem onResponse_summary_cases (txt : Option String) (st : AgentState) :
    (onResponse txt st).summary = st.summary ∨
      ∃ t, txt = some t ∧ strIncludes t taskSummaryTag = true ∧
        (onResponse txt st).summary = t := by
  cases txt with
  | none => exact Or.inl rfl
  | some t =>
    simp only [onResponse]
    split_ifs with h1 h2
    · exact Or.inl rfl
    · exact Or.inr ⟨t, rfl, h2, rfl⟩
    · exact Or.inl rfl

theorem onResponse_no_sentinel (txt : Option String) (st : AgentState)
    (h : ∀ s, txt = some s → strIncludes s taskSummaryTag = false) :
    onResponse txt st = st := by
  cases txt with
  | none => rfl
  | some t =>
    have ht := h t rfl
    simp only [onResponse]
    split_ifs with h1 h2
    · rfl
    · rw [ht] at h2; cases h2
    · rfl

theorem stateAt_frozen (writeOk : String → String → Bool)
    (agent : Nat → TurnOutput) (cap : Nat) (sbx0 : Files) (n : Nat)
    (h : (stateAt writeOk agent cap sbx0 n).1.summary ≠ "") :
    stateAt writeOk agent cap sbx0 (n + 1)
      = stateAt writeOk agent cap sbx0 n := by
  rw [stateAt]
  exact if_neg (fun hc => h hc.2)

theorem stateAt_frozen_add (writeOk : String → String → Bool)
    (agent : Nat → TurnOutput) (cap : Nat) (sbx0 : Files) (m : Nat)
    (h : (stateAt writeOk agent cap sbx0 m).1.summary ≠ "") :
    ∀ k, stateAt writeOk agent cap sbx0 (m + k)
      = stateAt writeOk agent cap sbx0 m := by
  intro k
  induction k with
  | zero => rfl
  | succ k ih =>
    have : (stateAt writeOk agent cap sbx0 (m + k)).1.summary ≠ "" := by
      rw [ih]; exact h
    rw [show m + (k + 1) = (m + k) + 1 from rfl, stateAt_frozen _ _ _ _ _ this, ih]

/-- Claim C2: across a whole run, `summary` starts empty, transitions from
empty to non-empty at most once (the state is frozen from the first
boundary at which it is non-empty, because the router then selects no
agent), and any change of `summary` comes verbatim from the final
assistant text of the turn, which contains the completion sentinel. -/
theorem summary_set_at_most_once (writeOk : String → String → Bool)
    (agent : Nat → TurnOutput) (cap : Nat) (sbx0 : Files) :
    (stateAt writeOk agent cap sbx0 0).1.summary = ""
    ∧ (∀ m k, (stateAt writeOk agent cap sbx0 m).1.summary ≠ "" →
        (stateAt writeOk agent cap sbx0 (m + k)).1.summary
          = (stateAt writeOk agent cap sbx0 m).1.summary)
    ∧ (∀ n, (stateAt writeOk agent cap sbx0 (n + 1)).1.summary
          ≠ (stateAt writeOk agent cap sbx0 n).1.summary →
        ∃ t, (agent n).text = some t ∧ strIncludes t taskSummaryTag = true ∧
          (stateAt writeOk agent cap sbx0 (n + 1)).1.summary = t) := by
  refine ⟨rfl, ?_, ?_⟩
  · intro m k h
    rw [stateAt_frozen_add writeOk agent cap sbx0 m h k]
  · intro n hch
    by_cases hc : n < cap ∧ (stateAt writeOk agent cap sbx0 n).1.summary = ""
    · have hstep : stateAt writeOk agent cap sbx0 (n + 1)
          = runTurn writeOk (agent n)
              (stateAt writeOk agent cap sbx0 n).1
              (stateAt writeOk agent cap sbx0 n).2 := by
        rw [stateAt]
        exact if_pos hc
      rw [hstep] at hch ⊢
      simp only [runTurn] at hch ⊢
      rcases onResponse_summary_cases (agent n).text
          { (stateAt writeOk agent cap sbx0 n).1 with
            files := (runWriteCalls writeOk
              (stateAt writeOk agent cap sbx0 n).1.files
              (stateAt writeOk agent cap sbx0 n).2 (agent n).writes).1 } with
        h | ⟨t, htxt, hinc, heq⟩
      · exact absurd h hch
      · exact ⟨t, htxt, hinc, heq⟩
    · have : stateAt writeOk agent cap sbx0 (n + 1)
          = stateAt writeOk agent cap sbx0 n := by
        rw [stateAt]
        exact if_neg hc
      rw [this] at hch
      exact absurd rfl hch

/-- Closed instance of `summary_set_at_most_once`: an agent that emits the
sentinel on its first turn; the summary at boundary 1 is non-empty and is
unchanged three boundaries later. -/
theorem summary_set_at_most_once_witness :
    (stateAt (fun _ _ => true)
        (fun _ => ⟨[], some "<task_summary> done"⟩) 15 [] (1 + 3)).1.summary
      = (stateAt (fun _ _ => true)
        (fun _ => ⟨[], some "<task_summary> done"⟩) 15 [] 1).1.summary :=
  (summary_set_at_most_once (fun _ _ => true)
      (fun _ => ⟨[], some "<task_summary> done"⟩) 15 []).2.1 1 3 (by decide)


theorem stateAt_summary_empty_of_no_sentinel (writeOk : String → String → Bool)
    (agent : Nat → TurnOutput) (cap : Nat) (sbx0 : Files)
    (h : ∀ n t, (agent n).text = some t →
      strIncludes t taskSummaryTag = false) :
    ∀ n, (stateAt writeOk agent cap sbx0 n).1.summary = "" := by
  intro n
  induction n with
  | zero => rfl
  | succ n ih =>
    rw [stateAt]
    by_cases hc : n < cap ∧ (stateAt writeOk agent cap sbx0 n).1.summary = ""
    · rw [if_pos hc]
      simp only [runTurn]
      rw [onResponse_no_sentinel (agent n).text _ (fun s hs => h n s hs)]
      exact ih
    · rw [if_neg hc]
      exact ih

/-- Claim C4: with the configured cap of 15 (functions.ts line 177), an
agent that never emits the completion sentinel still executes exactly 15
turns; the terminal summary is empty, which is exactly the failure signal
`isError` consumes (a valid terminal condition, not a fault); and no run
whatsoever executes more than 15 turns. -/
theorem loop_capped_at_fifteen (writeOk : String → String → Bool)
    (agent : Nat → TurnOutput) (sbx0 : Files)
    (h : ∀ n t, (agent n).text = some t →
      strIncludes t taskSummaryTag = false) :
    turnsExecuted writeOk agent codeAgentMaxIter sbx0 = 15
    ∧ (stateAt writeOk agent codeAgentMaxIter sbx0
        codeAgentMaxIter).1.summary = ""
    ∧ isError (stateAt writeOk agent codeAgentMaxIter sbx0
        codeAgentMaxIter).1 = true
    ∧ (∀ (w : String → String → Bool) (a : Nat → TurnOutput) (s : Files),
        turnsExecuted w a codeAgentMaxIter s ≤ 15) := by
  have hempty := stateAt_summary_empty_of_no_sentinel writeOk agent
    codeAgentMaxIter sbx0 h
  refine ⟨?_, hempty codeAgentMaxIter, ?_, ?_⟩
  · unfold turnsExecuted
    rw [List.filter_eq_self.mpr]
    · simp [codeAgentMaxIter]
    · intro n hn
      rw [List.mem_range] at hn
      unfold turnRan
      rw [hempty n]
      simp [hn]
  · rw [isError, hempty codeAgentMaxIter]
    simp
  · intro w a s
    calc turnsExecuted w a codeAgentMaxIter s
        ≤ (List.range codeAgentMaxIter).length :=
          List.length_filter_le _ _
      _ = 15 := by simp [codeAgentMaxIter]

/-- Closed instance of `loop_capped_at_fifteen`: an agent producing only
pure tool-call turns (no assistant text at all). -/
theorem loop_capped_at_fifteen_witness :
    turnsExecuted (fun _ _ => true) (fun _ => ⟨[], none⟩) codeAgentMaxIter []
      = 15
    ∧ (stateAt (fun _ _ => true) (fun _ => ⟨[], none⟩) codeAgentMaxIter []
        codeAgentMaxIter).1.summary = ""
    ∧ isError (stateAt (fun _ _ => true) (fun _ => ⟨[], none⟩)
        codeAgentMaxIter [] codeAgentMaxIter).1 = true
    ∧ (∀ (w : String → String → Bool) (a : Nat → TurnOutput) (s : Files),
        turnsExecuted w a codeAgentMaxIter s ≤ 15) :=
  loop_capped_at_fifteen (fun _ _ => true) (fun _ => ⟨[], none⟩) []
    (fun _ _ ht => Option.noConfusion ht)


/-- Claim C3: the run outcome is success (`isError` false) iff the summary
is non-empty and the files map is non-empty; in the failure case the
single persisted record has role ASSISTANT, type ERROR, the fixed content
"Something went wrong. Please try again." and carries no fragment — the
partial summary and files never reach the record. -/
theorem run_outcome_and_error_record (st : AgentState)
    (projectId url : String) (titleOut respOut : GenOutput) :
    (isError st = false ↔ st.summary ≠ "" ∧ st.files ≠ [])
    ∧ (isError st = true →
        saveResult projectId st url titleOut respOut =
          { projectId := projectId,
            content := "Something went wrong. Please try again.",
            role := "ASSISTANT", type := "ERROR", fragment := none }) := by
  constructor
  · simp [isError, List.isEmpty_eq_false]
  · intro h
    simp [saveResult, h]

/-- Closed instance of `run_outcome_and_error_record`: the failure record
for a run that ends with empty summary and empty files. -/
theorem run_outcome_and_error_record_witness :
    saveResult "p1" initialState "http://u" GenOutput.nonText
        GenOutput.nonText =
      { projectId := "p1",
        content := "Something went wrong. Please try again.",
        role := "ASSISTANT", type := "ERROR", fragment := none } :=
  (run_outcome_and_error_record initialState "p1" "http://u"
    GenOutput.nonText GenOutput.nonText).2 (by decide)

theorem strIncludes_of_empty_toList (t : String) (h : t.toList = []) :
    strIncludes t taskSummaryTag = false := by
  unfold strIncludes
  rw [h]
  rfl

/-- Claim C5: for a turn whose final assistant text is present, the
detector writes the entire text verbatim (sentinel markup included) into
`summary` when the text contains the sentinel, and makes no state change
at all when it does not. -/
theorem completion_detector_verbatim (t : String) (st : AgentState) :
    (strIncludes t taskSummaryTag = true →
        onResponse (some t) st = { st with summary := t })
    ∧ (strIncludes t taskSummaryTag = false →
        onResponse (some t) st = st) := by
  constructor
  · intro h
    have hne : t.toList.isEmpty = false := by
      cases he : t.toList.isEmpty
      · rfl
      · rw [strIncludes_of_empty_toList t (List.isEmpty_iff.mp he)] at h
        cases h
    simp only [onResponse, hne, Bool.false_eq_true, if_false, h, if_true]
  · intro h
    simp only [onResponse, h, Bool.false_eq_true, if_false, ite_self]

/-- Closed instance of `completion_detector_verbatim`: a sentinel-bearing
text is copied verbatim into the summary; a sentinel-free text leaves the
initial state untouched. -/
theorem completion_detector_verbatim_witness :
    onResponse (some "<task_summary>built it</task_summary>") initialState
      = { summary := "<task_summary>built it</task_summary>", files := [] }
    ∧ onResponse (some "still working") initialState = initialState :=
  ⟨(completion_detector_verbatim "<task_summary>built it</task_summary>"
      initialState).1 (by decide),
   (completion_detector_verbatim "still working" initialState).2 (by decide)⟩


/-- Claim C6: over any sequence of `createOrUpdateFiles` invocations in
which every sandbox write succeeds, the final agent files map is the
last-write-wins merge, in order, of every (path, content) entry of every
call; and regardless of write failures, the domain of the files map never
shrinks. -/
theorem files_last_write_wins (writeOk : String → String → Bool)
    (files0 sbx0 : Files) (calls : List (List (String × String))) :
    ((∀ call ∈ calls, ∀ e ∈ call, writeOk e.1 e.2 = true) →
        (runWriteCalls writeOk files0 sbx0 calls).1
          = lwwMerge files0 calls.flatten)
    ∧ (∀ p, (lookupFile files0 p).isSome = true →
        (lookupFile (runWriteCalls writeOk files0 sbx0 calls).1 p).isSome
          = true) := by
  constructor
  · intro h
    rw [runWriteCalls_allOk writeOk calls files0 sbx0 h]
  · intro p hp
    exact runWriteCalls_files_mono writeOk calls files0 sbx0 p hp

/-- Closed instance of `files_last_write_wins`: two calls, the second
overwriting a path of the first; the "c" key present beforehand
survives. -/
theorem files_last_write_wins_witness :
    (runWriteCalls (fun _ _ => true) [("c", "0")] []
        [[("a", "1")], [("a", "2"), ("b", "3")]]).1
      = lwwMerge [("c", "0")] [[("a", "1")], [("a", "2"), ("b", "3")]].flatten
    ∧ (lookupFile (runWriteCalls (fun _ _ => true) [("c", "0")] []
        [[("a", "1")], [("a", "2"), ("b", "3")]]).1 "c").isSome = true :=
  ⟨(files_last_write_wins (fun _ _ => true) [("c", "0")] []
      [[("a", "1")], [("a", "2"), ("b", "3")]]).1 (by decide),
   (files_last_write_wins (fun _ _ => true) [("c", "0")] []
      [[("a", "1")], [("a", "2"), ("b", "3")]]).2 "c" (by decide)⟩

theorem isPrefixOf_self_append (n post : List Char) :
    n.isPrefixOf (n ++ post) = true := by
  induction n with
  | nil => simp [List.isPrefixOf]
  | cons c cs ih => simp [List.isPrefixOf, ih]

theorem containsSeg_append (n pre post : List Char) :
    containsSeg n (pre ++ (n ++ post)) = true := by
  induction pre with
  | nil =>
    simp only [List.nil_append]
    cases h : n ++ post with
    | nil =>
      have : n = [] := (List.append_eq_nil.mp h).1
      simp [containsSeg, this]
    | cons c rest =>
      rw [containsSeg, ← h, isPrefixOf_self_append]
      rfl
  | cons c cs ih =>
    simp [containsSeg, ih]

theorem containsSeg_of_eq_append (n l pre post : List Char)
    (h : l = pre ++ n ++ post) : containsSeg n l = true := by
  subst h
  rw [List.append_assoc]
  exact containsSeg_append n pre post

/-- Claim C7: the `terminal` tool returns the captured stdout on success;
on failure it returns the single composite string of functions.ts line 94,
which embeds (as substrings) the error text and both captured stream
buffers. -/
theorem terminal_outcomes (out errS e o s : String) :
    terminal (.ok out errS) = out
    ∧ terminal (.thrown e o s)
        = "Command failed: " ++ e ++ " stdout: " ++ o ++ "\nstderr: " ++ s
    ∧ strIncludes (terminal (.thrown e o s)) e = true
    ∧ strIncludes (terminal (.thrown e o s)) o = true
    ∧ strIncludes (terminal (.thrown e o s)) s = true := by
  refine ⟨rfl, rfl, ?_, ?_, ?_⟩
  · refine containsSeg_of_eq_append _ _ "Command failed: ".toList
      (" stdout: " ++ o ++ "\nstderr: " ++ s).toList ?_
    simp [terminal, strIncludes, String.toList, String.data_append,
      List.append_assoc]
  · refine containsSeg_of_eq_append _ _
      ("Command failed: " ++ e ++ " stdout: ").toList
      ("\nstderr: " ++ s).toList ?_
    simp [terminal, strIncludes, String.toList, String.data_append,
      List.append_assoc]
  · refine containsSeg_of_eq_append _ _
      ("Command failed: " ++ e ++ " stdout: " ++ o ++ "\nstderr: ").toList
      [] ?_
    simp [terminal, strIncludes, String.toList, String.data_append,
      List.append_assoc]

/-- Claim C8: a turn with no final assistant text (a pure tool-call turn)
leaves the detector without effect: no state change from `onResponse`, and
the whole turn leaves the summary exactly as it was. -/
theorem no_text_no_fault (st : AgentState) (writeOk : String → String → Bool)
    (t : TurnOutput) (sbx : Files) (h : t.text = none) :
    onResponse t.text st = st
    ∧ (runTurn writeOk t st sbx).1.summary = st.summary := by
  constructor
  · rw [h]
    rfl
  · simp only [runTurn, h, onResponse]

/-- Closed instance of `no_text_no_fault`: a pure tool-call turn that
writes one file; the summary is untouched. -/
theorem no_text_no_fault_witness :
    onResponse (TurnOutput.mk [[("a", "1")]] none).text initialState
        = initialState
    ∧ (runTurn (fun _ _ => true) (TurnOutput.mk [[("a", "1")]] none)
        initialState []).1.summary = initialState.summary :=
  no_text_no_fault initialState (fun _ _ => true)
    (TurnOutput.mk [[("a", "1")]] none) [] rfl


/-- Claim C9: writing (path, content) through the write tool (with the
sandbox write succeeding) and then, after any further write calls that
never touch that path, reading the path back through the read tool
returns exactly the written content: the collected records are
[(path, content)] and the tool returns their JSON encoding. -/
theorem write_read_roundtrip (writeOk : String → String → Bool)
    (files0 sbx0 : Files) (p c errMsg : String)
    (later : List (List (String × String)))
    (h1 : writeOk p c = true)
    (h2 : ∀ call ∈ later, ∀ e ∈ call, e.1 ≠ p) :
    readContents
        (runWriteCalls writeOk
          (createOrUpdateFiles writeOk files0 sbx0 [(p, c)]).1
          (createOrUpdateFiles writeOk files0 sbx0 [(p, c)]).2.1 later).2
        [p] = some [(p, c)]
    ∧ readFiles
        (runWriteCalls writeOk
          (createOrUpdateFiles writeOk files0 sbx0 [(p, c)]).1
          (createOrUpdateFiles writeOk files0 sbx0 [(p, c)]).2.1 later).2
        [p] errMsg = jsonStringify [(p, c)] := by
  have hcall : createOrUpdateFiles writeOk files0 sbx0 [(p, c)]
      = (insertFile files0 p c, insertFile sbx0 p c, true) := by
    simp [createOrUpdateFiles, h1, lwwMerge]
  have hlook : lookupFile
      (runWriteCalls writeOk
        (createOrUpdateFiles writeOk files0 sbx0 [(p, c)]).1
        (createOrUpdateFiles writeOk files0 sbx0 [(p, c)]).2.1 later).2 p
      = some c := by
    rw [runWriteCalls_sbx_lookup_ne writeOk later h2, hcall]
    exact lookupFile_insertFile_self sbx0 p c
  have hrc : readContents
      (runWriteCalls writeOk
        (createOrUpdateFiles writeOk files0 sbx0 [(p, c)]).1
        (createOrUpdateFiles writeOk files0 sbx0 [(p, c)]).2.1 later).2
      [p] = some [(p, c)] := by
    simp [readContents, readSandboxFile, hlook]
  refine ⟨hrc, ?_⟩
  rw [readFiles, hrc]

/-- Closed instance of `write_read_roundtrip`: write "a.txt", then write an
unrelated file, then read "a.txt" back. -/
theorem write_read_roundtrip_witness :
    readContents
        (runWriteCalls (fun _ _ => true)
          (createOrUpdateFiles (fun _ _ => true) [] [] [("a.txt", "hi")]).1
          (createOrUpdateFiles (fun _ _ => true) [] [] [("a.txt", "hi")]).2.1
          [[("b.txt", "x")]]).2
        ["a.txt"] = some [("a.txt", "hi")]
    ∧ readFiles
        (runWriteCalls (fun _ _ => true)
          (createOrUpdateFiles (fun _ _ => true) [] [] [("a.txt", "hi")]).1
          (createOrUpdateFiles (fun _ _ => true) [] [] [("a.txt", "hi")]).2.1
          [[("b.txt", "x")]]).2
        ["a.txt"] "oops" = jsonStringify [("a.txt", "hi")] :=
  write_read_roundtrip (fun _ _ => true) [] [] "a.txt" "hi" "oops"
    [[("b.txt", "x")]] rfl (by decide)

/-- Claim C10: the result descriptor handed back to the trigger caller
always carries the constant title "Fragment" (functions.ts line 277); the
generated fragment title appears only inside the fragment of the persisted
success record, and the failure record has no fragment at all. -/
theorem return_title_constant (url projectId : String) (st : AgentState)
    (titleOut respOut : GenOutput) :
    (codeAgentReturn url st).title = "Fragment"
    ∧ (isError st = false →
        (saveResult projectId st url titleOut respOut).fragment
          = some { sandboxUrl := url,
                   title := generateFragmentTitle titleOut,
                   files := st.files })
    ∧ (isError st = true →
        (saveResult projectId st url titleOut respOut).fragment = none) := by
  refine ⟨rfl, ?_, ?_⟩
  · intro h
    simp [saveResult, h]
  · intro h
    simp [saveResult, h]

/-- Closed instance of `return_title_constant`: a successful run returns
title "Fragment" to the caller while the persisted fragment carries the
generated title. -/
theorem return_title_constant_witness :
    (codeAgentReturn "http://u" (AgentState.mk "<task_summary>ok"
        [("a", "1")])).title = "Fragment"
    ∧ (saveResult "p1" (AgentState.mk "<task_summary>ok" [("a", "1")])
        "http://u" (GenOutput.textStr "My title") GenOutput.nonText).fragment
      = some { sandboxUrl := "http://u", title := "My title",
               files := [("a", "1")] } :=
  ⟨(return_title_constant "http://u" "p1"
      (AgentState.mk "<task_summary>ok" [("a", "1")])
      (GenOutput.textStr "My title") GenOutput.nonText).1,
   (return_title_constant "http://u" "p1"
      (AgentState.mk "<task_summary>ok" [("a", "1")])
      (GenOutput.textStr "My title") GenOutput.nonText).2.1 (by decide)⟩

/-- Claim C1, evaluated at the failing input: an invocation of the write
tool with entries [("a.txt", "1"), ("b.txt", "2")] against an empty state
in which the sandbox write of "b.txt" throws. Because `updatedFiles`
(functions.ts line 116) aliases `network.state.data.files` and is mutated
in place entry by entry, the state after the failed invocation holds the
partially merged map [("a.txt", "1")] — neither the pre-invocation map []
nor the full merge of both entries — even though the handler returned an
error string and the guard at line 129 skipped the final assignment. -/
theorem c1_partial_merge_at_failure :
    createOrUpdateFiles (fun q _ => q == "a.txt") [] []
        [("a.txt", "1"), ("b.txt", "2")]
      = ([("a.txt", "1")], [("a.txt", "1")], false)
    ∧ ([("a.txt", "1")] : Files) ≠ []
    ∧ ([("a.txt", "1")] : Files)
        ≠ lwwMerge [] [("a.txt", "1"), ("b.txt", "2")] :=
  ⟨by decide, by decide, by decide⟩

end Zenkai
